import Mathlib

/-!
Shallow embedding of the `clap-digest` crate (src/src/lib.rs, src/src/arg.rs,
src/examples/cksum.rs) and proofs about its specification.

The embedding models the build configuration in which every digest algorithm
family feature is enabled, so the `Digest` enum below lists all 43 variants of
`src/src/lib.rs` lines 164-293.  Feature-conditional builds are modelled
separately via `Feature`, `Digest.family` and `variantsFor`.
-/

/-- The `Digest` enum of `src/src/lib.rs` (lines 161-293): one constructor per
variant, in declaration order.  The Rust type derives `Ord`, which orders
variants by declaration position; `deriving Ord` below mirrors that. -/
inductive Digest where
  | BLAKE2b512
  | BLAKE2s256
  | BLAKE3
  | FSB160
  | FSB224
  | FSB256
  | FSB384
  | FSB512
  | GOST94CryptoPro
  | GOST94UA
  | GOST94s2015
  | Groestl224
  | Groestl256
  | Groestl384
  | Groestl512
  | MD2
  | MD4
  | MD5
  | RIPEMD160
  | RIPEMD256
  | RIPEMD320
  | SHA1
  | SHA224
  | SHA256
  | SHA384
  | SHA512
  | SHA512_224
  | SHA512_256
  | SHA3_224
  | SHA3_256
  | SHA3_384
  | SHA3_512
  | SHABAL192
  | SHABAL224
  | SHABAL256
  | SHABAL384
  | SHABAL512
  | SM3
  | Streebog256
  | Streebog512
  | Tiger
  | Tiger2
  | Whirlpool
  deriving DecidableEq, Ord, Repr

/-- `Digest::name` (src/src/lib.rs lines 301-432): the canonical name of each
algorithm, one match arm per variant, transcribed literally. -/
def Digest.name : Digest → String
  | .BLAKE2b512 => "BLAKE2b512"
  | .BLAKE2s256 => "BLAKE2s256"
  | .BLAKE3 => "BLAKE3"
  | .FSB160 => "FSB160"
  | .FSB224 => "FSB224"
  | .FSB256 => "FSB256"
  | .FSB384 => "FSB384"
  | .FSB512 => "FSB512"
  | .GOST94CryptoPro => "GOST94CryptoPro"
  | .GOST94UA => "GOST94UA"
  | .GOST94s2015 => "GOST94s2015"
  | .Groestl224 => "Groestl224"
  | .Groestl256 => "Groestl256"
  | .Groestl384 => "Groestl384"
  | .Groestl512 => "Groestl512"
  | .MD2 => "MD2"
  | .MD4 => "MD4"
  | .MD5 => "MD5"
  | .RIPEMD160 => "RIPEMD160"
  | .RIPEMD256 => "RIPEMD256"
  | .RIPEMD320 => "RIPEMD320"
  | .SHA1 => "SHA1"
  | .SHA224 => "SHA224"
  | .SHA256 => "SHA256"
  | .SHA384 => "SHA384"
  | .SHA512 => "SHA512"
  | .SHA512_224 => "SHA512/224"
  | .SHA512_256 => "SHA512/256"
  | .SHA3_224 => "SHA3-224"
  | .SHA3_256 => "SHA3-256"
  | .SHA3_384 => "SHA3-384"
  | .SHA3_512 => "SHA3-512"
  | .SHABAL192 => "Shabal-192"
  | .SHABAL224 => "Shabal-224"
  | .SHABAL256 => "Shabal-256"
  | .SHABAL384 => "Shabal-384"
  | .SHABAL512 => "Shabal-512"
  | .SM3 => "SM3"
  | .Streebog256 => "Streebog-256"
  | .Streebog512 => "Streebog-512"
  | .Tiger => "Tiger"
  | .Tiger2 => "Tiger2"
  | .Whirlpool => "Whirlpool"

/-- `Digest::value_variants` (src/src/lib.rs lines 442-531): the fixed listing
of all variants, transcribed in the order the source slice lists them. -/
def Digest.value_variants : List Digest :=
  [ .BLAKE2b512, .BLAKE2s256, .BLAKE3,
    .FSB160, .FSB224, .FSB256, .FSB384, .FSB512,
    .GOST94CryptoPro, .GOST94UA, .GOST94s2015,
    .Groestl224, .Groestl256, .Groestl384, .Groestl512,
    .MD2, .MD4, .MD5,
    .RIPEMD160, .RIPEMD256, .RIPEMD320,
    .SHA1, .SHA224, .SHA256, .SHA384, .SHA512, .SHA512_224, .SHA512_256,
    .SHA3_224, .SHA3_256, .SHA3_384, .SHA3_512,
    .SHABAL192, .SHABAL224, .SHABAL256, .SHABAL384, .SHABAL512,
    .SM3, .Streebog256, .Streebog512,
    .Tiger, .Tiger2, .Whirlpool ]

/-- Error kind of the argument-layer parser: the input matched no canonical
name; carries the user input and the legal choices (the user-facing message of
clap's `EnumValueParser` names the possible values). -/
inductive ParseError where
  | unknownAlgorithm (input : String) (choices : List String)
  deriving DecidableEq, Repr

/-- Lookup of `clap::builder::EnumValueParser::<Digest>` combined with
`Digest::to_possible_value` (src/src/lib.rs lines 533-536): find the variant
whose possible value (its canonical name, no aliases, case-sensitive since
`ignore_case` is never set) equals the input text. -/
def Digest.parse (s : String) : Option Digest :=
  Digest.value_variants.find? (fun d => d.name == s)

/-- `EnumValueParser` as used by `arg::digest` (src/src/arg.rs line 61) and by
the cksum example (src/examples/cksum.rs line 51): a matching variant parses,
anything else is rejected with an unknown-algorithm error naming the legal
choices. -/
def Digest.parseValue (s : String) : Except ParseError Digest :=
  match Digest.parse s with
  | some d => .ok d
  | none => .error (.unknownAlgorithm s (Digest.value_variants.map Digest.name))

/-- The external hasher type constructed by each arm of
`impl From<Digest> for Box<dyn DynDigest>` (src/src/lib.rs lines 538-671),
transcribed as the Rust type path passed to `Box::<T>::default()`. -/
def hasherCtor : Digest → String
  | .BLAKE2b512 => "blake2::Blake2b512"
  | .BLAKE2s256 => "blake2::Blake2s256"
  | .BLAKE3 => "blake3::Hasher"
  | .FSB160 => "fsb::Fsb160"
  | .FSB224 => "fsb::Fsb224"
  | .FSB256 => "fsb::Fsb256"
  | .FSB384 => "fsb::Fsb384"
  | .FSB512 => "fsb::Fsb512"
  | .GOST94CryptoPro => "gost94::Gost94CryptoPro"
  | .GOST94UA => "gost94::Gost94UA"
  | .GOST94s2015 => "gost94::Gost94s2015"
  | .Groestl224 => "groestl::Groestl224"
  | .Groestl256 => "groestl::Groestl256"
  | .Groestl384 => "groestl::Groestl384"
  | .Groestl512 => "groestl::Groestl512"
  | .MD2 => "md2::Md2"
  | .MD4 => "md4::Md4"
  | .MD5 => "md5::Md5"
  | .RIPEMD160 => "ripemd::Ripemd160"
  | .RIPEMD256 => "ripemd::Ripemd256"
  | .RIPEMD320 => "ripemd::Ripemd320"
  | .SHA1 => "sha1::Sha1"
  | .SHA224 => "sha2::Sha224"
  | .SHA256 => "sha2::Sha256"
  | .SHA384 => "sha2::Sha384"
  | .SHA512 => "sha2::Sha512"
  | .SHA512_224 => "sha2::Sha512_224"
  | .SHA512_256 => "sha2::Sha512_256"
  | .SHA3_224 => "sha3::Sha3_224"
  | .SHA3_256 => "sha3::Sha3_256"
  | .SHA3_384 => "sha3::Sha3_384"
  | .SHA3_512 => "sha3::Sha3_512"
  | .SHABAL192 => "shabal::Shabal192"
  | .SHABAL224 => "shabal::Shabal224"
  | .SHABAL256 => "shabal::Shabal256"
  | .SHABAL384 => "shabal::Shabal384"
  | .SHABAL512 => "shabal::Shabal512"
  | .SM3 => "sm3::Sm3"
  | .Streebog256 => "streebog::Streebog256"
  | .Streebog512 => "streebog::Streebog512"
  | .Tiger => "tiger::Tiger"
  | .Tiger2 => "tiger::Tiger2"
  | .Whirlpool => "whirlpool::Whirlpool"

/-- A streaming hasher instance: the external type it was constructed from and
the bytes accumulated since construction or the last reset. -/
structure Hasher where
  ctor : String
  buf : List Nat
  deriving DecidableEq, Repr

/-- `From<Digest> for Box<dyn DynDigest>` (src/src/lib.rs lines 538-671):
every arm runs `Box::<T>::default()`, producing a fresh zero-state hasher of
the dispatched type; there is no error or panic branch, so the embedding is a
total function. -/
def instantiate (d : Digest) : Hasher :=
  ⟨hasherCtor d, []⟩

/-- Declaration position of each variant inside the `Digest` enum
(src/src/lib.rs lines 164-293).  Rust's `derive(Ord)` on a fieldless enum
compares these discriminants. -/
def Digest.discriminant : Digest → Nat
  | .BLAKE2b512 => 0
  | .BLAKE2s256 => 1
  | .BLAKE3 => 2
  | .FSB160 => 3
  | .FSB224 => 4
  | .FSB256 => 5
  | .FSB384 => 6
  | .FSB512 => 7
  | .GOST94CryptoPro => 8
  | .GOST94UA => 9
  | .GOST94s2015 => 10
  | .Groestl224 => 11
  | .Groestl256 => 12
  | .Groestl384 => 13
  | .Groestl512 => 14
  | .MD2 => 15
  | .MD4 => 16
  | .MD5 => 17
  | .RIPEMD160 => 18
  | .RIPEMD256 => 19
  | .RIPEMD320 => 20
  | .SHA1 => 21
  | .SHA224 => 22
  | .SHA256 => 23
  | .SHA384 => 24
  | .SHA512 => 25
  | .SHA512_224 => 26
  | .SHA512_256 => 27
  | .SHA3_224 => 28
  | .SHA3_256 => 29
  | .SHA3_384 => 30
  | .SHA3_512 => 31
  | .SHABAL192 => 32
  | .SHABAL224 => 33
  | .SHABAL256 => 34
  | .SHABAL384 => 35
  | .SHABAL512 => 36
  | .SM3 => 37
  | .Streebog256 => 38
  | .Streebog512 => 39
  | .Tiger => 40
  | .Tiger2 => 41
  | .Whirlpool => 42

/-- The 17 digest algorithm family features listed in the `compile_error!`
guard of src/src/lib.rs lines 138-157. -/
inductive Feature where
  | blake2
  | blake3
  | fsb
  | gost94
  | groestl
  | md2
  | md4
  | md5
  | ripemd
  | sha1
  | sha2
  | sha3
  | shabal
  | sm3
  | streebog
  | tiger
  | whirlpool
  deriving DecidableEq, Repr

/-- The feature gating each variant, transcribed from the `cfg(feature = ...)`
attributes on the enum variants (src/src/lib.rs lines 164-293). -/
def Digest.family : Digest → Feature
  | .BLAKE2b512 => .blake2
  | .BLAKE2s256 => .blake2
  | .BLAKE3 => .blake3
  | .FSB160 => .fsb
  | .FSB224 => .fsb
  | .FSB256 => .fsb
  | .FSB384 => .fsb
  | .FSB512 => .fsb
  | .GOST94CryptoPro => .gost94
  | .GOST94UA => .gost94
  | .GOST94s2015 => .gost94
  | .Groestl224 => .groestl
  | .Groestl256 => .groestl
  | .Groestl384 => .groestl
  | .Groestl512 => .groestl
  | .MD2 => .md2
  | .MD4 => .md4
  | .MD5 => .md5
  | .RIPEMD160 => .ripemd
  | .RIPEMD256 => .ripemd
  | .RIPEMD320 => .ripemd
  | .SHA1 => .sha1
  | .SHA224 => .sha2
  | .SHA256 => .sha2
  | .SHA384 => .sha2
  | .SHA512 => .sha2
  | .SHA512_224 => .sha2
  | .SHA512_256 => .sha2
  | .SHA3_224 => .sha3
  | .SHA3_256 => .sha3
  | .SHA3_384 => .sha3
  | .SHA3_512 => .sha3
  | .SHABAL192 => .shabal
  | .SHABAL224 => .shabal
  | .SHABAL256 => .shabal
  | .SHABAL384 => .shabal
  | .SHABAL512 => .shabal
  | .SM3 => .sm3
  | .Streebog256 => .streebog
  | .Streebog512 => .streebog
  | .Tiger => .tiger
  | .Tiger2 => .tiger
  | .Whirlpool => .whirlpool

/-- A build configuration: which algorithm family features are enabled. -/
abbrev Config := Feature → Bool

/-- A configuration builds exactly when the `compile_error!` guard of
src/src/lib.rs lines 138-157 does not fire: at least one of the 17 family
features is enabled (transcription of the negated `cfg(not(any(...)))`). -/
def buildable (cfg : Config) : Prop :=
  cfg .blake2 = true ∨ cfg .blake3 = true ∨ cfg .fsb = true ∨
  cfg .gost94 = true ∨ cfg .groestl = true ∨ cfg .md2 = true ∨
  cfg .md4 = true ∨ cfg .md5 = true ∨ cfg .ripemd = true ∨
  cfg .sha1 = true ∨ cfg .sha2 = true ∨ cfg .sha3 = true ∨
  cfg .shabal = true ∨ cfg .sm3 = true ∨ cfg .streebog = true ∨
  cfg .tiger = true ∨ cfg .whirlpool = true

/-- The `value_variants` slice as compiled under configuration `cfg`: each
entry of the full slice is kept exactly when its family feature is enabled
(the `cfg(feature = ...)` attributes on the slice entries, src/src/lib.rs
lines 442-531, mirror those on the variants). -/
def variantsFor (cfg : Config) : List Digest :=
  Digest.value_variants.filter (fun d => cfg d.family)

/-- Lowercase hexadecimal digit character: 0-9 then a-f, as produced by Rust's
`{:02x}` formatting. -/
def hexDigitChar (n : Nat) : Char :=
  if n < 10 then Char.ofNat (48 + n) else Char.ofNat (87 + n)

/-- The two characters `format using 02x` produces for one byte value
(`b < 256`): high nibble then low nibble, zero-padded to width two
(src/examples/cksum.rs line 35). -/
def hexBytePair (b : Nat) : List Char :=
  [hexDigitChar (b / 16 % 16), hexDigitChar (b % 16)]

/-- The hex string collected from mapping `{:02x}` over the digest bytes
(src/examples/cksum.rs line 35). -/
def hexEncode (bytes : List Nat) : String :=
  String.mk (bytes.flatMap hexBytePair)

/-- The line `println!` emits per input (src/examples/cksum.rs line 37):
hex digest, two spaces, the input path. -/
def outputLine (digestBytes : List Nat) (input : String) : String :=
  hexEncode digestBytes ++ "  " ++ input

/-- Whether a byte is a UTF-8 continuation byte (`0x80..=0xBF`). -/
def isCont (b : Nat) : Bool :=
  128 ≤ b && b ≤ 191

/-- UTF-8 validity of a byte sequence, as checked by the Rust standard
library's string decoding that `std::fs::read_to_string` performs: ASCII
passes, two-byte sequences start at `0xC2..=0xDF`, three-byte sequences make
the `0xE0`/`0xED` overlong and surrogate exclusions, four-byte sequences make
the `0xF0`/`0xF4` exclusions, everything else is rejected. -/
def utf8Valid : List Nat → Bool
  | [] => true
  | b :: rest =>
    if b ≤ 127 then utf8Valid rest
    else if 194 ≤ b && b ≤ 223 then
      match rest with
      | c1 :: rest2 => isCont c1 && utf8Valid rest2
      | [] => false
    else if 224 ≤ b && b ≤ 239 then
      match rest with
      | c1 :: c2 :: rest2 =>
        (if b = 224 then 160 ≤ c1 && c1 ≤ 191
         else if b = 237 then 128 ≤ c1 && c1 ≤ 159
         else isCont c1) && isCont c2 && utf8Valid rest2
      | _ => false
    else if 240 ≤ b && b ≤ 244 then
      match rest with
      | c1 :: c2 :: c3 :: rest2 =>
        (if b = 240 then 144 ≤ c1 && c1 ≤ 191
         else if b = 244 then 128 ≤ c1 && c1 ≤ 143
         else isCont c1) && isCont c2 && isCont c3 && utf8Valid rest2
      | _ => false
    else false

/-- A file system seen by the cksum example: each path either holds a byte
sequence or fails to read (`none` models a host-level read error). -/
abbrev FS := String → Option (List Nat)

/-- The two failure kinds the cksum example can hit per input. -/
inductive CkError where
  | readFailed (path : String)
  | invalidUtf8 (path : String)
  deriving DecidableEq, Repr

/-- `std::fs::read_to_string(path)` as called by `hash_path`
(src/examples/cksum.rs line 9): fails when the read fails, fails when the
bytes are not valid UTF-8, and otherwise yields the string whose `as_bytes`
are exactly the file's bytes. -/
def readToString (fs : FS) (path : String) : Except CkError (List Nat) :=
  match fs path with
  | none => .error (.readFailed path)
  | some bytes =>
    if utf8Valid bytes then .ok bytes else .error (.invalidUtf8 path)

/-- `hash_path` (src/examples/cksum.rs lines 8-13): read the file to a string,
feed its bytes to the hasher, finalize-and-reset.  The digest computation
itself is external, so it is a parameter `dfn` mapping an algorithm and the
accumulated bytes to the digest bytes. -/
def hash_path (dfn : Digest → List Nat → List Nat) (fs : FS) (alg : Digest)
    (path : String) : Except CkError (List Nat) :=
  (readToString fs path).map (dfn alg)

/-- The per-input loop of `main` (src/examples/cksum.rs lines 33-38): for each
input in order, hash it and print one line; the `?` operator propagates the
first failure out of `main`, so the loop stops there.  Returns the lines
printed and the error, if any. -/
def runInputs (dfn : Digest → List Nat → List Nat) (fs : FS) (alg : Digest) :
    List String → List String × Option CkError
  | [] => ([], none)
  | p :: rest =>
    match hash_path dfn fs alg p with
    | .error e => ([], some e)
    | .ok h =>
      let r := runInputs dfn fs alg rest
      (outputLine h p :: r.1, r.2)

/-- A clap `Arg` descriptor, keeping the fields the cksum example and the
`arg` module set: name, short flag, long flag, help text, `takes_value`,
`multiple_values`, and `required_unless_present`. -/
structure ArgDef where
  name : String
  short : Option Char
  long : Option String
  help : Option String
  takesValue : Bool
  multipleValues : Bool
  requiredUnlessPresent : Option String
  deriving DecidableEq, Repr

/-- clap v3 `Arg::long` strips leading dash characters from its argument. -/
def trimDashes (s : String) : String :=
  String.mk (s.data.dropWhile (fun c => c = '-'))

/-- The `algorithm` argument of the cksum example's `cli`
(src/examples/cksum.rs lines 45-51): short `a`, long `algorithm`, takes a
value, required unless `list-algorithms` is present, parsed by
`EnumValueParser::<Digest>`. -/
def algorithmArg : ArgDef :=
  ⟨"algorithm", some 'a', some (trimDashes "algorithm"),
    some "digest algorithm", true, false, some "list-algorithms"⟩

/-- The `list-algorithms` flag of the cksum example's `cli`
(src/examples/cksum.rs lines 53-55): long `--list-algorithms` (clap trims the
leading dashes), no short form, takes no value. -/
def listAlgorithmsArg : ArgDef :=
  ⟨"list-algorithms", none, some (trimDashes "--list-algorithms"),
    some "list supported digest algorithms", false, false, none⟩

/-- The positional `input` argument of the cksum example's `cli`
(src/examples/cksum.rs lines 57-60): input files, multiple values, required
unless `list-algorithms` is present. -/
def inputArg : ArgDef :=
  ⟨"input", none, none, some "input files", false, true,
    some "list-algorithms"⟩

/-- The argument list of the cksum example's `Command`
(src/examples/cksum.rs lines 62-67), in the order the builder adds them. -/
def cksumArgs : List ArgDef :=
  [inputArg, algorithmArg, listAlgorithmsArg]

/-- `arg::digest` (src/src/arg.rs lines 51-62): short `d`, long `digest`,
takes a value, value parser `EnumValueParser::<Digest>`. -/
def digestArg : ArgDef :=
  ⟨"digest", some 'd', some (trimDashes "digest"), some "digest algorithm",
    true, false, none⟩

/-- `arg::list_digests` (src/src/arg.rs lines 78-82): long `list-digests`
only. -/
def listDigestsArg : ArgDef :=
  ⟨"list-digests", none, some (trimDashes "list-digests"),
    some "list supported digest algorithms", false, false, none⟩

/-- Whether a character is a lowercase hexadecimal digit (0-9 or a-f). -/
def isLowerHexDigit (c : Char) : Bool :=
  ('0' ≤ c && c ≤ '9') || ('a' ≤ c && c ≤ 'f')

/-- A digest function standing in for the external hash libraries in concrete
evaluations: it returns the accumulated bytes unchanged. -/
def dfnId : Digest → List Nat → List Nat :=
  fun _ bytes => bytes

/-- A concrete file system for evaluations: `a` holds the byte `0x61`, `c`
holds `0x63`, `bin` holds the lone byte `0xFF` (not valid UTF-8), and every
other path fails to read. -/
def fsDemo : FS := fun p =>
  if p = "a" then some [97]
  else if p = "c" then some [99]
  else if p = "bin" then some [255]
  else none

/-- The digests `dfnId` yields on `fsDemo`'s two text files. -/
def dsDemo : String → List Nat :=
  fun p => if p = "a" then [97] else [99]

/-- A concrete build configuration enabling only the `md5` family. -/
def cfgMd5 : Config := fun f =>
  match f with
  | .md5 => true
  | _ => false

instance : Fintype Digest where
  elems := ⟨Multiset.ofList Digest.value_variants, by decide⟩
  complete := fun d => by cases d <;> decide

theorem mem_value_variants (d : Digest) : d ∈ Digest.value_variants := by
  cases d <;> decide

theorem parse_some_name {s : String} {d : Digest} (h : Digest.parse s = some d) :
    d.name = s := by
  have := List.find?_some h
  exact eq_of_beq this

theorem parse_none_iff (s : String) :
    Digest.parse s = none ↔ ∀ d : Digest, d.name ≠ s := by
  unfold Digest.parse
  rw [List.find?_eq_none]
  constructor
  · intro h d
    have := h d (mem_value_variants d)
    simpa using this
  · intro h d _
    simpa using h d

/-- C1: for every enabled algorithm identifier, parsing the canonical name
yields the identifier back: looking up `Digest::name d` among the possible
values of `value_variants` (the `EnumValueParser` lookup) returns `d`, both at
the `Option` level and through the argument-layer parser. -/
theorem name_parse_roundtrip :
    ∀ d : Digest, Digest.parse d.name = some d ∧ Digest.parseValue d.name = .ok d := by
  intro d
  cases d <;> exact ⟨rfl, rfl⟩

/-- C3: `Digest::value_variants` is a fixed constant sequence that lists every
identifier exactly once: it has no duplicate identifiers, no duplicate
canonical names, contains every constructor of the identifier-to-hasher
dispatch (which is total over `Digest`), and the dispatch arms are pairwise
distinct external constructors. -/
theorem value_variants_exact :
    Digest.value_variants.Nodup
    ∧ (Digest.value_variants.map Digest.name).Nodup
    ∧ (∀ d : Digest, d ∈ Digest.value_variants)
    ∧ (Digest.value_variants.map hasherCtor).Nodup := by
  refine ⟨by decide, by decide, mem_value_variants, by decide⟩

/-- C4: `Digest::name` and the `From<Digest>` conversion are total over all
enabled identifiers: every identifier's name is one of the listed canonical
names, and instantiation always returns the dispatched constructor's hasher
with empty (zero) accumulated state — there is no failing branch. -/
theorem name_instantiate_total :
    ∀ d : Digest,
      d.name ∈ Digest.value_variants.map Digest.name
      ∧ (instantiate d).buf = []
      ∧ (instantiate d).ctor = hasherCtor d := by
  intro d
  exact ⟨List.mem_map_of_mem Digest.name (mem_value_variants d), rfl, rfl⟩

/-- C5: parsing is a case-sensitive exact match against canonical names: the
argument parser fails with an unknown-algorithm error naming the legal choices
exactly when the input equals no enabled identifier's canonical name; in
particular the empty string, `not-a-real-algorithm` and the wrong-case `md5`
are rejected while `MD5` parses. -/
theorem parse_rejects_unknown :
    (∀ s : String,
      Digest.parseValue s =
        .error (.unknownAlgorithm s (Digest.value_variants.map Digest.name))
      ↔ ∀ d : Digest, d.name ≠ s)
    ∧ Digest.parseValue "" =
        .error (.unknownAlgorithm "" (Digest.value_variants.map Digest.name))
    ∧ Digest.parseValue "not-a-real-algorithm" =
        .error (.unknownAlgorithm "not-a-real-algorithm"
          (Digest.value_variants.map Digest.name))
    ∧ Digest.parseValue "md5" =
        .error (.unknownAlgorithm "md5" (Digest.value_variants.map Digest.name))
    ∧ Digest.parseValue "MD5" = .ok .MD5 := by
  refine ⟨?_, rfl, rfl, rfl, rfl⟩
  intro s
  constructor
  · intro h d hds
    unfold Digest.parseValue at h
    cases hp : Digest.parse s with
    | none =>
      exact (parse_none_iff s).mp hp d hds
    | some d2 =>
      rw [hp] at h
      exact Except.noConfusion h
  · intro h
    unfold Digest.parseValue
    rw [(parse_none_iff s).mpr h]

/-- C2 counterexample: under the derived ordering, `SHA512_256` precedes
`SHA3_224` (declaration order), yet the canonical name `SHA512/256` is not
lexicographically less than `SHA3-224` — so the derived ordering is not
lexicographic over canonical names. -/
theorem ord_not_lexicographic :
    compare Digest.SHA512_256 Digest.SHA3_224 = Ordering.lt
    ∧ ¬ (Digest.name Digest.SHA512_256).data < (Digest.name Digest.SHA3_224).data
    ∧ (Digest.name Digest.SHA3_224).data < (Digest.name Digest.SHA512_256).data := by
  refine ⟨rfl, by decide, by decide⟩

/-- C2 (amended): the derived ordering on `Digest` compares variants by their
declaration position in the enum: `a` precedes `b` exactly when `a`'s
discriminant is smaller. -/
theorem ord_is_declaration_order :
    ∀ a b : Digest, compare a b = Ordering.lt ↔ a.discriminant < b.discriminant := by
  decide

/-- C9: whenever a build configuration passes the `compile_error!` guard (at
least one of the 17 family features enabled), the compiled `value_variants`
slice is non-empty. -/
theorem buildable_variants_nonempty (cfg : Config) (h : buildable cfg) :
    variantsFor cfg ≠ [] := by
  have hmem : ∃ d, d ∈ variantsFor cfg := by
    rcases h with h|h|h|h|h|h|h|h|h|h|h|h|h|h|h|h|h
    · exact ⟨.BLAKE2b512, List.mem_filter.mpr ⟨by decide, h⟩⟩
    · exact ⟨.BLAKE3, List.mem_filter.mpr ⟨by decide, h⟩⟩
    · exact ⟨.FSB160, List.mem_filter.mpr ⟨by decide, h⟩⟩
    · exact ⟨.GOST94CryptoPro, List.mem_filter.mpr ⟨by decide, h⟩⟩
    · exact ⟨.Groestl224, List.mem_filter.mpr ⟨by decide, h⟩⟩
    · exact ⟨.MD2, List.mem_filter.mpr ⟨by decide, h⟩⟩
    · exact ⟨.MD4, List.mem_filter.mpr ⟨by decide, h⟩⟩
    · exact ⟨.MD5, List.mem_filter.mpr ⟨by decide, h⟩⟩
    · exact ⟨.RIPEMD160, List.mem_filter.mpr ⟨by decide, h⟩⟩
    · exact ⟨.SHA1, List.mem_filter.mpr ⟨by decide, h⟩⟩
    · exact ⟨.SHA224, List.mem_filter.mpr ⟨by decide, h⟩⟩
    · exact ⟨.SHA3_224, List.mem_filter.mpr ⟨by decide, h⟩⟩
    · exact ⟨.SHABAL192, List.mem_filter.mpr ⟨by decide, h⟩⟩
    · exact ⟨.SM3, List.mem_filter.mpr ⟨by decide, h⟩⟩
    · exact ⟨.Streebog256, List.mem_filter.mpr ⟨by decide, h⟩⟩
    · exact ⟨.Tiger, List.mem_filter.mpr ⟨by decide, h⟩⟩
    · exact ⟨.Whirlpool, List.mem_filter.mpr ⟨by decide, h⟩⟩
  obtain ⟨d, hd⟩ := hmem
  intro hnil
  rw [hnil] at hd
  exact List.not_mem_nil d hd

/-- C9 witness: the configuration enabling only the `md5` family is buildable
and its variant list is non-empty. -/
theorem buildable_variants_nonempty_w :
    buildable cfgMd5 ∧ variantsFor cfgMd5 ≠ [] :=
  ⟨by unfold buildable; decide,
   buildable_variants_nonempty cfgMd5 (by unfold buildable; decide)⟩

/-- C6 evaluation: the cksum example's CLI has no argument with long flag
`digest`, none with short flag `d`, and none with long flag `list-digests`;
its actual surface is the positional `input`, the `-a`/`--algorithm` option
and the `--list-algorithms` flag. -/
theorem cksum_cli_flag_names :
    algorithmArg.long = some "algorithm"
    ∧ algorithmArg.short = some 'a'
    ∧ algorithmArg.takesValue = true
    ∧ listAlgorithmsArg.long = some "list-algorithms"
    ∧ inputArg.multipleValues = true
    ∧ inputArg.requiredUnlessPresent = some "list-algorithms"
    ∧ cksumArgs.filter (fun a => a.long == some "digest") = []
    ∧ cksumArgs.filter (fun a => a.short == some 'd') = []
    ∧ cksumArgs.filter (fun a => a.long == some "list-digests") = [] := by
  refine ⟨rfl, rfl, rfl, rfl, rfl, rfl, by decide, by decide, by decide⟩

theorem hexDigitChar_lower :
    ∀ i : Fin 16, isLowerHexDigit (hexDigitChar i.val) = true := by
  decide

theorem hexBytePair_lower (b : Nat) :
    (hexBytePair b).all isLowerHexDigit = true := by
  have h1 := hexDigitChar_lower ⟨b / 16 % 16, Nat.mod_lt _ (by norm_num)⟩
  have h2 := hexDigitChar_lower ⟨b % 16, Nat.mod_lt _ (by norm_num)⟩
  simp only [hexBytePair, List.all_cons, List.all_nil, Bool.and_true,
    Bool.and_eq_true]
  exact ⟨h1, h2⟩

theorem hexEncode_lower (bs : List Nat) :
    (hexEncode bs).data.all isLowerHexDigit = true := by
  induction bs with
  | nil => rfl
  | cons b rest ih =>
    show ((b :: rest).flatMap hexBytePair).all isLowerHexDigit = true
    rw [List.flatMap_cons, List.all_append, Bool.and_eq_true]
    exact ⟨hexBytePair_lower b, ih⟩

theorem hexEncode_length (bs : List Nat) :
    (hexEncode bs).length = 2 * bs.length := by
  induction bs with
  | nil => rfl
  | cons b rest ih =>
    show ((b :: rest).flatMap hexBytePair).length = 2 * (b :: rest).length
    rw [List.flatMap_cons, List.length_append]
    have h : (rest.flatMap hexBytePair).length = 2 * rest.length := ih
    simp only [hexBytePair, List.length_cons, List.length_nil, h]
    omega

theorem runInputs_all_ok (dfn : Digest → List Nat → List Nat) (fs : FS)
    (alg : Digest) (ds : String → List Nat) :
    ∀ inputs : List String,
      (∀ p ∈ inputs, hash_path dfn fs alg p = .ok (ds p)) →
      runInputs dfn fs alg inputs
        = (inputs.map (fun p => outputLine (ds p) p), none) := by
  intro inputs
  induction inputs with
  | nil => intro _; rfl
  | cons p rest ih =>
    intro hok
    have hp := hok p (List.mem_cons_self p rest)
    have hrest := ih (fun q hq => hok q (List.mem_cons_of_mem p hq))
    simp [runInputs, hp, hrest]

/-- C7: on a run where every input hashes successfully, the cksum example
prints exactly one line per input, in order, and each line is the lowercase
hexadecimal encoding of the digest (two hex characters per digest byte),
followed by two spaces, followed by the file path. -/
theorem cksum_output_line_format (dfn : Digest → List Nat → List Nat) (fs : FS)
    (alg : Digest) (inputs : List String) (ds : String → List Nat)
    (hok : ∀ p ∈ inputs, hash_path dfn fs alg p = .ok (ds p)) :
    runInputs dfn fs alg inputs
      = (inputs.map (fun p => hexEncode (ds p) ++ "  " ++ p), none)
    ∧ ∀ p ∈ inputs,
        (hexEncode (ds p)).data.all isLowerHexDigit = true
        ∧ (hexEncode (ds p)).length = 2 * (ds p).length :=
  ⟨runInputs_all_ok dfn fs alg ds inputs hok,
   fun p _ => ⟨hexEncode_lower (ds p), hexEncode_length (ds p)⟩⟩

/-- C7 witness: on the two readable files `a` and `c` of `fsDemo`, the run
prints the lines `61  a` and `63  c` and nothing else. -/
theorem cksum_output_line_format_w :
    (∀ p ∈ ["a", "c"], hash_path dfnId fsDemo Digest.MD5 p = .ok (dsDemo p))
    ∧ (runInputs dfnId fsDemo Digest.MD5 ["a", "c"]
        = (["a", "c"].map (fun p => hexEncode (dsDemo p) ++ "  " ++ p), none)
      ∧ ∀ p ∈ ["a", "c"],
          (hexEncode (dsDemo p)).data.all isLowerHexDigit = true
          ∧ (hexEncode (dsDemo p)).length = 2 * (dsDemo p).length) := by
  have hok : ∀ p ∈ ["a", "c"], hash_path dfnId fsDemo Digest.MD5 p = .ok (dsDemo p) := by
    intro p hp
    fin_cases hp <;> rfl
  exact ⟨hok, cksum_output_line_format dfnId fsDemo Digest.MD5 ["a", "c"] dsDemo hok⟩

/-- C8 counterexample: on `fsDemo` with inputs `a`, `b`, `c`, reading `b`
fails, and although `c` alone hashes successfully (and alone would print
`63  c`), the three-file run prints only the line for `a` — the failing input
stops the run, so later inputs are affected. -/
theorem failure_not_local_to_one_input :
    hash_path dfnId fsDemo Digest.MD5 "c" = .ok [99]
    ∧ runInputs dfnId fsDemo Digest.MD5 ["c"] = (["63  c"], none)
    ∧ runInputs dfnId fsDemo Digest.MD5 ["a", "b", "c"]
        = (["61  a"], some (.readFailed "b"))
    ∧ outputLine [99] "c" ∉ (runInputs dfnId fsDemo Digest.MD5 ["a", "b", "c"]).1 := by
  refine ⟨rfl, rfl, rfl, ?_⟩
  decide

/-- C8 (amended): an I/O failure on one input is surfaced immediately and
aborts the run at that input: lines already printed for earlier inputs are
kept (no partial-result suppression, no aggregation), but inputs after the
failing one are not processed. -/
theorem run_aborts_at_first_failure (dfn : Digest → List Nat → List Nat)
    (fs : FS) (alg : Digest) (ds : String → List Nat)
    (pre : List String) (p : String) (post : List String) (e : CkError)
    (hpre : ∀ q ∈ pre, hash_path dfn fs alg q = .ok (ds q))
    (hp : hash_path dfn fs alg p = .error e) :
    runInputs dfn fs alg (pre ++ p :: post)
      = (pre.map (fun q => outputLine (ds q) q), some e) := by
  revert hpre
  induction pre with
  | nil =>
    intro _
    simp [runInputs, hp]
  | cons q rest ih =>
    intro hpre
    have hq := hpre q (List.mem_cons_self q rest)
    have ih2 := ih (fun r hr => hpre r (List.mem_cons_of_mem q hr))
    simp [runInputs, hq, ih2]

/-- C8 witness: on `fsDemo` with inputs `a`, `b`, `c`, where `a` hashes
successfully and reading `b` fails, the run keeps the line for `a` and stops
with the read failure for `b`. -/
theorem run_aborts_at_first_failure_w :
    (∀ q ∈ ["a"], hash_path dfnId fsDemo Digest.MD5 q = .ok (dsDemo q))
    ∧ hash_path dfnId fsDemo Digest.MD5 "b" = .error (.readFailed "b")
    ∧ runInputs dfnId fsDemo Digest.MD5 (["a"] ++ "b" :: ["c"])
        = (["a"].map (fun q => outputLine (dsDemo q) q), some (.readFailed "b")) := by
  have h1 : ∀ q ∈ ["a"], hash_path dfnId fsDemo Digest.MD5 q = .ok (dsDemo q) := by
    intro q hq
    fin_cases hq
    rfl
  have h2 : hash_path dfnId fsDemo Digest.MD5 "b" = .error (.readFailed "b") := rfl
  exact ⟨h1, h2,
    run_aborts_at_first_failure dfnId fsDemo Digest.MD5 dsDemo ["a"] "b" ["c"]
      (.readFailed "b") h1 h2⟩

/-- C10: the cksum example reads each input with `std::fs::read_to_string`,
so a readable file whose bytes are not valid UTF-8 makes hashing fail with an
error, and a run over that input stops with the error (non-zero exit). -/
theorem non_utf8_file_fails (dfn : Digest → List Nat → List Nat) (fs : FS)
    (alg : Digest) (p : String) (bytes : List Nat)
    (hread : fs p = some bytes) (hinv : utf8Valid bytes = false) :
    hash_path dfn fs alg p = .error (.invalidUtf8 p)
    ∧ runInputs dfn fs alg [p] = ([], some (.invalidUtf8 p)) := by
  have h : readToString fs p = .error (.invalidUtf8 p) := by
    simp [readToString, hread, hinv]
  constructor
  · simp [hash_path, h, Except.map]
  · simp [runInputs, hash_path, h, Except.map]

/-- C10 witness: the readable file `bin` of `fsDemo` holds the byte `0xFF`,
which is not valid UTF-8, and hashing it fails with the invalid-UTF-8
error. -/
theorem non_utf8_file_fails_w :
    fsDemo "bin" = some [255]
    ∧ utf8Valid [255] = false
    ∧ hash_path dfnId fsDemo Digest.MD5 "bin" = .error (.invalidUtf8 "bin")
    ∧ runInputs dfnId fsDemo Digest.MD5 ["bin"] = ([], some (.invalidUtf8 "bin")) := by
  have h := non_utf8_file_fails dfnId fsDemo Digest.MD5 "bin" [255] rfl rfl
  exact ⟨rfl, rfl, h.1, h.2⟩
